import Mathlib

/-!
# Verification of the DeltaDrive ride-hailing core

Shallow embedding of the vehicle matching engine, the cache-backed vehicle
registry service and the review service
(`src/model/vehicle/vehicle.service.ts`, `src/model/review/review.service.ts`).

JavaScript numbers are embedded as rationals (`ℚ`): every arithmetic
operation the code performs (addition, multiplication, division by a
non-zero count, comparison) is exact on the inputs considered here.
Asynchronous methods are sequential in the source (each `await` is
immediately consumed), so they are embedded as pure functions; external
collaborators that are not part of the repository's core
(`PositionService.calculateDistance`, `ReviewService.getVehicleReviews`,
the GUID generator, the Mongo store) are taken as parameters or modelled
from the spec where their behaviour matters.
-/

/-- Geographic position (`Position` from `src/services`): a pair of
coordinates. -/
structure Position where
  latitude : ℚ
  longitude : ℚ
deriving DecidableEq, Repr

/-- Vehicle record (`Vehicle` from `src/model/vehicle/vehicle`), fields as
used by `vehicle.service.ts` and described in spec §3. -/
structure Vehicle where
  uuid : String
  brand : String
  firstName : String
  lastName : String
  latitude : ℚ
  longitude : ℚ
  pricePerKM : ℚ
  startPrice : ℚ
  booked : Bool
deriving DecidableEq, Repr

/-- The geo-position stored on a vehicle record.  The source passes the
vehicle itself to `calculateDistance`, which reads these two fields. -/
def Vehicle.position (v : Vehicle) : Position :=
  { latitude := v.latitude, longitude := v.longitude }

/-- Modelled from the spec: `VehicleReviewDto` (the DTO file is not under
`src/`); the matching engine reads only its numeric `rate` field, and per
spec §4.4 the review list fetched for a vehicle consists of its rated
reviews. -/
structure VehicleReviewDto where
  rate : ℚ
deriving DecidableEq, Repr

/-- Ride offer (`VehicleOffer` DTO), fields as constructed by
`findClosestVehicles`. -/
structure VehicleOffer where
  vehicle : Vehicle
  distanceToDriver : ℚ
  price : ℚ
  reviews : List VehicleReviewDto
  averageRating : ℚ
deriving DecidableEq, Repr

/-- The intermediate `{ vehicle, distance }` pairs built by
`findClosestVehicles` before sorting. -/
structure VehicleDistance where
  vehicle : Vehicle
  distance : ℚ
deriving DecidableEq, Repr

/-- The comparator `(a, b) => a.distance - b.distance` sorts ascending by
distance: as a relation, `a.distance ≤ b.distance`. -/
def distLE (a b : VehicleDistance) : Prop :=
  a.distance ≤ b.distance

instance : DecidableRel distLE := fun a b => inferInstanceAs (Decidable (a.distance ≤ b.distance))

instance : IsTotal VehicleDistance distLE := ⟨fun a b => le_total a.distance b.distance⟩

instance : IsTrans VehicleDistance distLE := ⟨fun _ _ _ h h' => le_trans h h'⟩

/-- The offer pushed for one surviving vehicle: the body of the loop in
`findClosestVehicles` (lines 90–113).  `score` is the running sum of
`review.rate`; `averageRating` is `score / reviews.length` guarded by the
`reviews.length > 0` check in the source. -/
def offerOf (getVehicleReviews : String → List VehicleReviewDto)
    (distanceToDestination : ℚ) (vd : VehicleDistance) : VehicleOffer :=
  let reviews := getVehicleReviews vd.vehicle.uuid
  let score := reviews.foldl (fun s review => s + review.rate) 0
  let averageRating := if reviews.length > 0 then score / (reviews.length : ℚ) else 0
  { vehicle := vd.vehicle
    distanceToDriver := vd.distance
    price := distanceToDestination * vd.vehicle.pricePerKM + vd.vehicle.startPrice
    reviews := reviews
    averageRating := averageRating }

/-- The `for … of` loop of `findClosestVehicles` (lines 83–119): skip booked
vehicles, push an offer for each survivor, break once the accumulated
length equals `count`.  `count` is a JavaScript number compared with `===`,
embedded as `Int` equality against the accumulator length. -/
def buildOffers (getVehicleReviews : String → List VehicleReviewDto)
    (distanceToDestination : ℚ) (count : Int) :
    List VehicleDistance → List VehicleOffer → List VehicleOffer
  | [], closestVehicles => closestVehicles
  | vd :: rest, closestVehicles =>
    if vd.vehicle.booked then
      buildOffers getVehicleReviews distanceToDestination count rest closestVehicles
    else
      let pushed := closestVehicles ++ [offerOf getVehicleReviews distanceToDestination vd]
      if (pushed.length : Int) = count then
        pushed
      else
        buildOffers getVehicleReviews distanceToDestination count rest pushed

/-- `findClosestVehicles` (vehicle.service.ts lines 68–121).
`calculateDistance` (the `PositionService` collaborator, not under `src/`)
and `getVehicleReviews` are parameters; everything else mirrors the source:
map to `{vehicle, distance}` pairs, sort ascending by distance, then run
the offer-building loop with an empty accumulator. -/
def findClosestVehicles (calculateDistance : Position → Position → ℚ)
    (getVehicleReviews : String → List VehicleReviewDto)
    (userPosition : Position) (vehicles : List Vehicle) (count : Int)
    (distanceToDestination : ℚ) : List VehicleOffer :=
  let vehicleDistances := vehicles.map (fun vehicle =>
    { vehicle := vehicle
      distance := calculateDistance userPosition vehicle.position : VehicleDistance })
  let sortedDistances := List.insertionSort distLE vehicleDistances
  buildOffers getVehicleReviews distanceToDestination count sortedDistances []

/-- Modelled from the spec: the in-process `CacheService`
(`src/cache`, not under `src/`), §4.2 and §3 "Cache entry": a mapping
vehicle-id → Vehicle with a sentinel "never loaded" state distinct from
"loaded with zero entries". -/
structure CacheState where
  loaded : Bool
  entries : List Vehicle
deriving DecidableEq, Repr

/-- Modelled from the spec: `isEmpty() -> bool`, "true iff the cache has
never been populated (distinct from populated with zero entries)". -/
def cacheIsEmpty (c : CacheState) : Bool :=
  !c.loaded

/-- Modelled from the spec: `addAll(vehicles)` "bulk-loads records,
transitions state to loaded even if the input set is empty". -/
def cacheAddAll (vehicles : List Vehicle) (_c : CacheState) : CacheState :=
  { loaded := true, entries := vehicles }

/-- Modelled from the spec: `getAll() -> sequence of Vehicle`, "returns the
current loaded set". -/
def cacheGetAll (c : CacheState) : List Vehicle :=
  c.entries

/-- Modelled from the spec: `get(id) -> Vehicle or not-found`, a point
lookup by vehicle identifier. -/
def cacheGet (uuid : String) (c : CacheState) : Option Vehicle :=
  c.entries.find? (fun v => v.uuid = uuid)

/-- Modelled from the spec: `set(vehicle)` "upsert a single record":
replace the entry with the same identifier, or add the record. -/
def cacheSet (v : Vehicle) (c : CacheState) : CacheState :=
  { loaded := c.loaded
    entries :=
      if c.entries.any (fun w => w.uuid = v.uuid) then
        c.entries.map (fun w => if w.uuid = v.uuid then v else w)
      else
        c.entries ++ [v] }

/-- `getAllVehicles` (vehicle.service.ts lines 39–47).  The Mongo store is
the parameter `db` (`vehicleModel.find()` returns the full fleet); the
returned triple is (result, cache state after the call, whether a storage
read was issued). -/
def getAllVehicles (db : List Vehicle) (c : CacheState) :
    List Vehicle × CacheState × Bool :=
  if cacheIsEmpty c then
    (db, cacheAddAll db c, true)
  else
    (cacheGetAll c, c, false)

/-- `getVehicle` (vehicle.service.ts lines 54–59).  `dbFindOne` models
`vehicleModel.findOne({ uuid })`; the Bool records whether a storage read
was issued. -/
def getVehicle (dbFindOne : String → Option Vehicle) (uuid : String)
    (c : CacheState) : Option Vehicle × Bool :=
  if cacheIsEmpty c then
    (dbFindOne uuid, true)
  else
    (cacheGet uuid c, false)

/-- `book` (vehicle.service.ts lines 127–131): set `booked := true` on the
record, write it to the cache; the durable `updateOne` is modelled by
returning the record written to storage alongside the new cache state. -/
def book (vehicle : Vehicle) (c : CacheState) :
    Vehicle × CacheState :=
  let booked := { vehicle with booked := true }
  (booked, cacheSet booked c)

/-- `finishRide` (vehicle.service.ts lines 139–145): update the position,
clear the booked flag, write through cache; the durable write is the
returned record. -/
def finishRide (vehicle : Vehicle) (newLocation : Position) (c : CacheState) :
    Vehicle × CacheState :=
  let updated := { vehicle with
    longitude := newLocation.longitude
    latitude := newLocation.latitude
    booked := false }
  (updated, cacheSet updated c)

/-- Observable side effects of a registry call, in program order. -/
inductive Effect where
  | cacheWrite (v : Vehicle)
  | storageUpdate (uuid : String) (v : Vehicle)
deriving DecidableEq, Repr

/-- The effect trace of `book` (lines 127–131): statement order of the
source, `cacheService.set` then `vehicleModel.updateOne`. -/
def bookTrace (vehicle : Vehicle) : List Effect :=
  let booked := { vehicle with booked := true }
  [Effect.cacheWrite booked, Effect.storageUpdate booked.uuid booked]

/-- The effect trace of `finishRide` (lines 139–145): `cacheService.set`
then `vehicleModel.updateOne`, in statement order. -/
def finishRideTrace (vehicle : Vehicle) (newLocation : Position) : List Effect :=
  let updated := { vehicle with
    longitude := newLocation.longitude
    latitude := newLocation.latitude
    booked := false }
  [Effect.cacheWrite updated, Effect.storageUpdate updated.uuid updated]

/-- `t` performs every cache mutation strictly before every durable
storage write. -/
def cacheBeforeStorage (t : List Effect) : Prop :=
  ∀ i j, (∃ v, t.get? i = some (Effect.cacheWrite v)) →
    (∃ uuid v, t.get? j = some (Effect.storageUpdate uuid v)) → i < j

/-- Review record (`Review` from `src/model/review/review`), fields as
written by `review.service.ts` and described in spec §3: optional rating
and comment, present only on completed reviews.  `dateOfRide` is the
creation timestamp, taken as a parameter (`new Date()`). -/
structure Review where
  uuid : String
  email : String
  vehicleId : String
  dateOfRide : ℕ
  price : ℚ
  completed : Bool
  rate : Option ℚ
  comment : Option String
deriving DecidableEq, Repr

/-- `insertReviewRequest` (review.service.ts lines 32–42): create a pending
review stub with a fresh GUID (the `GuidService` collaborator is the
`generatedGuid` parameter), the current date, `completed: false`, and no
`rate` or `comment` field. -/
def insertReviewRequest (generatedGuid : String) (now : ℕ)
    (email : String) (vehicleId : String) (price : ℚ) : Review :=
  { uuid := generatedGuid
    email := email
    vehicleId := vehicleId
    dateOfRide := now
    price := price
    completed := false
    rate := none
    comment := none }

/-- Well-formedness of a review record, spec §3: the rating and the comment
are present only when the completion flag is set. -/
def reviewInvariant (r : Review) : Bool :=
  (!r.rate.isSome && !r.comment.isSome) || r.completed

/-! ## Concrete fixtures used to instantiate the universally quantified
theorems below on executable inputs -/

def origin : Position := { latitude := 0, longitude := 0 }

def testVehicle : Vehicle :=
  { uuid := "v1"
    brand := "BrandA"
    firstName := "Ana"
    lastName := "Doe"
    latitude := 0
    longitude := 0
    pricePerKM := 2
    startPrice := 5
    booked := false }

/-- A degenerate distance collaborator: every vehicle is at distance 0. -/
def zeroDistance : Position → Position → ℚ := fun _ _ => 0

/-- A review collaborator returning two rated reviews for every vehicle. -/
def testReviews : String → List VehicleReviewDto :=
  fun _ => [{ rate := 4 }, { rate := 5 }]

/-- A cache in the loaded state with no entries. -/
def loadedCache : CacheState := { loaded := true, entries := [] }

/-! ## Lemmas about the offer-building loop -/

theorem foldl_rate (l : List VehicleReviewDto) (init : ℚ) :
    l.foldl (fun s review => s + review.rate) init
      = init + (l.map VehicleReviewDto.rate).sum := by
  induction l generalizing init with
  | nil => simp
  | cons r rest ih =>
    simp only [List.foldl_cons, List.map_cons, List.sum_cons, ih]
    ring

theorem buildOffers_mem (gr : String → List VehicleReviewDto) (d : ℚ)
    (cnt : Int) :
    ∀ (l : List VehicleDistance) (acc : List VehicleOffer) (o : VehicleOffer),
      o ∈ buildOffers gr d cnt l acc →
      o ∈ acc ∨ ∃ vd, vd ∈ l ∧ vd.vehicle.booked = false ∧ o = offerOf gr d vd := by
  intro l
  induction l with
  | nil =>
    intro acc o h
    exact Or.inl h
  | cons vd rest ih =>
    intro acc o h
    simp only [buildOffers] at h
    by_cases hb : vd.vehicle.booked = true
    · rw [if_pos hb] at h
      rcases ih acc o h with h' | ⟨vd', hm, hnb, he⟩
      · exact Or.inl h'
      · exact Or.inr ⟨vd', List.mem_cons_of_mem _ hm, hnb, he⟩
    · rw [if_neg hb] at h
      have hbf : vd.vehicle.booked = false := by simpa using hb
      split_ifs at h with hlen
      · rcases List.mem_append.mp h with h' | h'
        · exact Or.inl h'
        · exact Or.inr ⟨vd, List.mem_cons_self _ _, hbf, by simpa using h'⟩
      · rcases ih _ o h with h' | ⟨vd', hm, hnb, he⟩
        · rcases List.mem_append.mp h' with h'' | h''
          · exact Or.inl h''
          · exact Or.inr ⟨vd, List.mem_cons_self _ _, hbf, by simpa using h''⟩
        · exact Or.inr ⟨vd', List.mem_cons_of_mem _ hm, hnb, he⟩

theorem findClosestVehicles_mem (calculateDistance : Position → Position → ℚ)
    (gr : String → List VehicleReviewDto) (userPosition : Position)
    (vehicles : List Vehicle) (cnt : Int) (d : ℚ) (o : VehicleOffer)
    (h : o ∈ findClosestVehicles calculateDistance gr userPosition vehicles cnt d) :
    ∃ vd, vd.vehicle ∈ vehicles ∧ vd.vehicle.booked = false ∧ o = offerOf gr d vd := by
  simp only [findClosestVehicles] at h
  rcases buildOffers_mem gr d cnt _ _ o h with h' | ⟨vd, hm, hnb, he⟩
  · simp at h'
  · refine ⟨vd, ?_, hnb, he⟩
    have hm' := (List.mem_insertionSort distLE).mp hm
    rcases List.mem_map.mp hm' with ⟨v, hv, hveq⟩
    have : vd.vehicle = v := by rw [← hveq]
    rw [this]
    exact hv

theorem buildOffers_length (gr : String → List VehicleReviewDto) (d : ℚ)
    (cnt : Int) :
    ∀ (l : List VehicleDistance) (acc : List VehicleOffer),
      (acc.length : Int) < cnt →
      ((buildOffers gr d cnt l acc).length : Int)
        = min cnt ((acc.length : Int)
            + (l.countP (fun vd => !vd.vehicle.booked) : Int)) := by
  intro l
  induction l with
  | nil =>
    intro acc h
    simp only [buildOffers, List.countP_nil]
    omega
  | cons vd rest ih =>
    intro acc h
    simp only [buildOffers, List.countP_cons]
    by_cases hb : vd.vehicle.booked = true
    · rw [if_pos hb]
      rw [ih acc h]
      simp [hb]
    · rw [if_neg hb]
      have hbf : vd.vehicle.booked = false := by simpa using hb
      by_cases hlen : (((acc ++ [offerOf gr d vd]).length : Int)) = cnt
      · rw [if_pos hlen]
        simp only [List.length_append, List.length_singleton] at hlen ⊢
        simp only [hbf, Bool.not_false, if_true]
        push_cast at hlen ⊢
        omega
      · rw [if_neg hlen]
        have hlt : (((acc ++ [offerOf gr d vd]).length : Int)) < cnt := by
          simp only [List.length_append, List.length_singleton] at hlen ⊢
          push_cast at hlen ⊢
          omega
        rw [ih _ hlt]
        simp only [List.length_append, List.length_singleton, hbf, Bool.not_false,
          if_true]
        push_cast
        omega

theorem buildOffers_nonpos (gr : String → List VehicleReviewDto) (d : ℚ)
    (cnt : Int) (hcnt : cnt ≤ 0) :
    ∀ (l : List VehicleDistance) (acc : List VehicleOffer),
      buildOffers gr d cnt l acc
        = acc ++ (l.filter (fun vd => !vd.vehicle.booked)).map (offerOf gr d) := by
  intro l
  induction l with
  | nil =>
    intro acc
    simp [buildOffers]
  | cons vd rest ih =>
    intro acc
    simp only [buildOffers, List.filter_cons]
    by_cases hb : vd.vehicle.booked = true
    · rw [if_pos hb]
      simp [hb, ih]
    · rw [if_neg hb]
      have hbf : vd.vehicle.booked = false := by simpa using hb
      have hlen : ¬(((acc ++ [offerOf gr d vd]).length : Int)) = cnt := by
        simp only [List.length_append, List.length_singleton]
        push_cast
        omega
      rw [if_neg hlen, ih]
      simp [hbf]

theorem buildOffers_sorted (gr : String → List VehicleReviewDto) (d : ℚ)
    (cnt : Int) :
    ∀ (l : List VehicleDistance) (acc : List VehicleOffer),
      l.Sorted distLE →
      (acc.map VehicleOffer.distanceToDriver).Sorted (· ≤ ·) →
      (∀ o ∈ acc, ∀ vd ∈ l, o.distanceToDriver ≤ vd.distance) →
      ((buildOffers gr d cnt l acc).map VehicleOffer.distanceToDriver).Sorted (· ≤ ·) := by
  intro l
  induction l with
  | nil =>
    intro acc _ hacc _
    exact hacc
  | cons vd rest ih =>
    intro acc hsort hacc hbound
    rw [List.sorted_cons] at hsort
    obtain ⟨hhd, hrest⟩ := hsort
    simp only [buildOffers]
    by_cases hb : vd.vehicle.booked = true
    · rw [if_pos hb]
      exact ih acc hrest hacc fun o ho x hx =>
        hbound o ho x (List.mem_cons_of_mem _ hx)
    · rw [if_neg hb]
      have hpushed :
          ((acc ++ [offerOf gr d vd]).map VehicleOffer.distanceToDriver).Sorted (· ≤ ·) := by
        rw [List.map_append]
        rw [List.Sorted, List.pairwise_append]
        refine ⟨hacc, by simp, ?_⟩
        intro a ha b hb'
        rcases List.mem_map.mp ha with ⟨o, ho, rfl⟩
        have hbv : b = vd.distance := by simpa [offerOf] using hb'
        rw [hbv]
        exact hbound o ho vd (List.mem_cons_self _ _)
      by_cases hlen : (((acc ++ [offerOf gr d vd]).length : Int)) = cnt
      · rw [if_pos hlen]
        exact hpushed
      · rw [if_neg hlen]
        refine ih _ hrest hpushed ?_
        intro o ho x hx
        rcases List.mem_append.mp ho with ho' | ho'
        · exact hbound o ho' x (List.mem_cons_of_mem _ hx)
        · have : o = offerOf gr d vd := by simpa using ho'
          rw [this]
          exact hhd x hx

/-! ## Projections of an emitted offer -/

theorem offerOf_vehicle (gr : String → List VehicleReviewDto) (d : ℚ)
    (vd : VehicleDistance) : (offerOf gr d vd).vehicle = vd.vehicle := rfl

theorem offerOf_distanceToDriver (gr : String → List VehicleReviewDto) (d : ℚ)
    (vd : VehicleDistance) : (offerOf gr d vd).distanceToDriver = vd.distance := rfl

theorem offerOf_price (gr : String → List VehicleReviewDto) (d : ℚ)
    (vd : VehicleDistance) :
    (offerOf gr d vd).price
      = d * vd.vehicle.pricePerKM + vd.vehicle.startPrice := rfl

theorem offerOf_reviews (gr : String → List VehicleReviewDto) (d : ℚ)
    (vd : VehicleDistance) :
    (offerOf gr d vd).reviews = gr vd.vehicle.uuid := rfl

theorem offerOf_averageRating (gr : String → List VehicleReviewDto) (d : ℚ)
    (vd : VehicleDistance) :
    (offerOf gr d vd).averageRating
      = if (gr vd.vehicle.uuid).length > 0 then
          ((gr vd.vehicle.uuid).foldl (fun s review => s + review.rate) 0)
            / ((gr vd.vehicle.uuid).length : ℚ)
        else 0 := rfl

/-! ## Lemmas about the cache -/

theorem cacheSet_loaded (v : Vehicle) (c : CacheState) :
    (cacheSet v c).loaded = c.loaded := rfl

theorem find?_map_upsert (v : Vehicle) :
    ∀ (l : List Vehicle), l.any (fun w => w.uuid = v.uuid) = true →
      (l.map (fun w => if w.uuid = v.uuid then v else w)).find?
          (fun w => w.uuid = v.uuid) = some v := by
  intro l
  induction l with
  | nil => simp
  | cons w rest ih =>
    intro hany
    by_cases hw : w.uuid = v.uuid
    · simp only [List.map_cons, if_pos hw]
      rw [List.find?_cons_of_pos _ (by simp)]
    · have hrest : rest.any (fun w => w.uuid = v.uuid) = true := by
        simpa [List.any_cons, hw] using hany
      simp only [List.map_cons, if_neg hw]
      rw [List.find?_cons_of_neg _ (by simpa using hw)]
      exact ih hrest

theorem find?_append_fresh (v : Vehicle) :
    ∀ (l : List Vehicle), l.any (fun w => w.uuid = v.uuid) = false →
      (l ++ [v]).find? (fun w => w.uuid = v.uuid) = some v := by
  intro l
  induction l with
  | nil => simp
  | cons w rest ih =>
    intro hany
    simp only [List.any_cons, Bool.or_eq_false_iff] at hany
    obtain ⟨hw, hrest⟩ := hany
    simp only [List.cons_append]
    rw [List.find?_cons_of_neg _ (by simpa using hw)]
    exact ih hrest

theorem cacheGet_cacheSet (v : Vehicle) (c : CacheState) :
    cacheGet v.uuid (cacheSet v c) = some v := by
  simp only [cacheGet, cacheSet]
  by_cases hany : c.entries.any (fun w => w.uuid = v.uuid) = true
  · rw [if_pos hany]
    exact find?_map_upsert v c.entries hany
  · rw [if_neg hany]
    exact find?_append_fresh v c.entries (by simpa using hany)

/-- Concrete evaluation of the matching engine on the fixtures: one unbooked
vehicle at distance 0, a requested count of 1. -/
theorem findClosest_eval :
    findClosestVehicles zeroDistance testReviews origin [testVehicle] 1 0
      = [offerOf testReviews 0 { vehicle := testVehicle, distance := 0 }] := rfl

/-! ## Claim theorems -/

/-- C2: for every candidate vehicle list and every count, no offer returned
by `findClosestVehicles` contains a vehicle whose `booked` flag is true. -/
theorem findClosestVehicles_no_booked
    (calculateDistance : Position → Position → ℚ)
    (gr : String → List VehicleReviewDto) (userPosition : Position)
    (vehicles : List Vehicle) (count : Int) (d : ℚ) (o : VehicleOffer)
    (h : o ∈ findClosestVehicles calculateDistance gr userPosition vehicles count d) :
    o.vehicle.booked = false := by
  rcases findClosestVehicles_mem calculateDistance gr userPosition vehicles
    count d o h with ⟨vd, _, hnb, rfl⟩
  rw [offerOf_vehicle]
  exact hnb

theorem findClosestVehicles_no_booked_witness :
    (offerOf testReviews 0 { vehicle := testVehicle, distance := 0 }).vehicle.booked
      = false :=
  findClosestVehicles_no_booked zeroDistance testReviews origin [testVehicle] 1 0 _
    (by rw [findClosest_eval]; exact List.mem_singleton_self _)

/-- C5: every offer emitted by `findClosestVehicles` has
`price = distanceToDestination * pricePerKM + startPrice` for its vehicle. -/
theorem findClosestVehicles_price
    (calculateDistance : Position → Position → ℚ)
    (gr : String → List VehicleReviewDto) (userPosition : Position)
    (vehicles : List Vehicle) (count : Int) (d : ℚ) (o : VehicleOffer)
    (h : o ∈ findClosestVehicles calculateDistance gr userPosition vehicles count d) :
    o.price = d * o.vehicle.pricePerKM + o.vehicle.startPrice := by
  rcases findClosestVehicles_mem calculateDistance gr userPosition vehicles
    count d o h with ⟨vd, _, _, rfl⟩
  rw [offerOf_price, offerOf_vehicle]

theorem findClosestVehicles_price_witness :
    (offerOf testReviews 0 { vehicle := testVehicle, distance := 0 }).price
      = 0 * (offerOf testReviews 0
          { vehicle := testVehicle, distance := 0 }).vehicle.pricePerKM
        + (offerOf testReviews 0
            { vehicle := testVehicle, distance := 0 }).vehicle.startPrice :=
  findClosestVehicles_price zeroDistance testReviews origin [testVehicle] 1 0 _
    (by rw [findClosest_eval]; exact List.mem_singleton_self _)

/-- C3: every offer emitted by `findClosestVehicles` carries the vehicle's
review list, and its `averageRating` is the sum of the ratings divided by
the number of rated reviews, or 0 when the vehicle has no rated reviews. -/
theorem findClosestVehicles_averageRating
    (calculateDistance : Position → Position → ℚ)
    (gr : String → List VehicleReviewDto) (userPosition : Position)
    (vehicles : List Vehicle) (count : Int) (d : ℚ) (o : VehicleOffer)
    (h : o ∈ findClosestVehicles calculateDistance gr userPosition vehicles count d) :
    o.reviews = gr o.vehicle.uuid
    ∧ o.averageRating =
        (if (gr o.vehicle.uuid).length = 0 then 0
         else ((gr o.vehicle.uuid).map VehicleReviewDto.rate).sum
            / ((gr o.vehicle.uuid).length : ℚ)) := by
  rcases findClosestVehicles_mem calculateDistance gr userPosition vehicles
    count d o h with ⟨vd, _, _, rfl⟩
  refine ⟨rfl, ?_⟩
  rw [offerOf_averageRating, offerOf_vehicle]
  rcases Nat.eq_zero_or_pos (gr vd.vehicle.uuid).length with hz | hp
  · simp [hz]
  · rw [if_pos hp, if_neg (by omega), foldl_rate, zero_add]

theorem findClosestVehicles_averageRating_witness :
    (offerOf testReviews 0 { vehicle := testVehicle, distance := 0 }).reviews
        = testReviews (offerOf testReviews 0
            { vehicle := testVehicle, distance := 0 }).vehicle.uuid
    ∧ (offerOf testReviews 0 { vehicle := testVehicle, distance := 0 }).averageRating
        = (if (testReviews (offerOf testReviews 0
              { vehicle := testVehicle, distance := 0 }).vehicle.uuid).length = 0 then 0
           else ((testReviews (offerOf testReviews 0
                { vehicle := testVehicle, distance := 0 }).vehicle.uuid).map
                  VehicleReviewDto.rate).sum
              / ((testReviews (offerOf testReviews 0
                  { vehicle := testVehicle, distance := 0 }).vehicle.uuid).length : ℚ)) :=
  findClosestVehicles_averageRating zeroDistance testReviews origin [testVehicle] 1 0 _
    (by rw [findClosest_eval]; exact List.mem_singleton_self _)

/-- C4: in the list returned by `findClosestVehicles`, the
`distanceToDriver` values are non-decreasing from first to last. -/
theorem findClosestVehicles_distances_sorted
    (calculateDistance : Position → Position → ℚ)
    (gr : String → List VehicleReviewDto) (userPosition : Position)
    (vehicles : List Vehicle) (count : Int) (d : ℚ) :
    ((findClosestVehicles calculateDistance gr userPosition vehicles count d).map
        VehicleOffer.distanceToDriver).Sorted (· ≤ ·) := by
  simp only [findClosestVehicles]
  exact buildOffers_sorted gr d count _ []
    (List.sorted_insertionSort distLE _) (by simp) (by simp)

/-- C1 fails as stated at count 0: with one unbooked candidate the loop's
stopping condition `closestVehicles.length === count` never fires, so the
result has length 1, not `min 0 1 = 0`. -/
theorem findClosestVehicles_zero_count_cex :
    ¬ (((findClosestVehicles zeroDistance testReviews origin [testVehicle] 0 0).length : Int)
        = min (0 : Int) (([testVehicle].countP (fun v => !v.booked) : Int))) := by
  decide

/-- C1 (amended): for every desired count N ≥ 1 the list returned by
`findClosestVehicles` has length `min N (number of unbooked candidates)`;
at N = 0 the source instead returns every unbooked candidate, since the
stopping condition compares the length only after a push. -/
theorem findClosestVehicles_length_min
    (calculateDistance : Position → Position → ℚ)
    (gr : String → List VehicleReviewDto) (userPosition : Position)
    (vehicles : List Vehicle) (count : Int) (d : ℚ) (hcount : 1 ≤ count) :
    ((findClosestVehicles calculateDistance gr userPosition vehicles count d).length : Int)
      = min count ((vehicles.countP (fun v => !v.booked) : Int)) := by
  simp only [findClosestVehicles]
  rw [buildOffers_length gr d count _ [] (by simpa using hcount)]
  have hcp : (List.insertionSort distLE (vehicles.map (fun vehicle =>
        ({ vehicle := vehicle
           distance := calculateDistance userPosition vehicle.position } : VehicleDistance)))).countP
          (fun vd => !vd.vehicle.booked)
        = vehicles.countP (fun v => !v.booked) := by
    rw [(List.perm_insertionSort distLE _).countP_eq, List.countP_map]
    rfl
  rw [hcp]
  simp

theorem findClosestVehicles_length_min_witness :
    1 ≤ (1 : Int)
    ∧ ((findClosestVehicles zeroDistance testReviews origin [testVehicle] 1 0).length : Int)
        = min (1 : Int) (([testVehicle].countP (fun v => !v.booked) : Int)) :=
  ⟨by decide,
    findClosestVehicles_length_min zeroDistance testReviews origin [testVehicle] 1 0
      (by decide)⟩

/-- C10: for every count ≤ 0 and candidate list with at least one unbooked
vehicle, `findClosestVehicles` emits an offer for every unbooked candidate:
the emitted vehicles are a permutation of the unbooked candidates. -/
theorem findClosestVehicles_nonpos_count_all_unbooked
    (calculateDistance : Position → Position → ℚ)
    (gr : String → List VehicleReviewDto) (userPosition : Position)
    (vehicles : List Vehicle) (count : Int) (d : ℚ)
    (hcount : count ≤ 0) (_hsome : ∃ v ∈ vehicles, v.booked = false) :
    ((findClosestVehicles calculateDistance gr userPosition vehicles count d).map
        VehicleOffer.vehicle).Perm (vehicles.filter (fun v => !v.booked))
    ∧ ∀ v ∈ vehicles, v.booked = false →
        ∃ o ∈ findClosestVehicles calculateDistance gr userPosition vehicles count d,
          o.vehicle = v := by
  have hmain : ((findClosestVehicles calculateDistance gr userPosition vehicles count d).map
      VehicleOffer.vehicle).Perm (vehicles.filter (fun v => !v.booked)) := by
    simp only [findClosestVehicles]
    rw [buildOffers_nonpos gr d count hcount, List.nil_append, List.map_map]
    have hcomp : (VehicleOffer.vehicle ∘ offerOf gr d)
        = (fun vd : VehicleDistance => vd.vehicle) := rfl
    rw [hcomp]
    have hq : (fun vd : VehicleDistance => !vd.vehicle.booked)
        = ((fun v : Vehicle => !v.booked) ∘ (fun vd : VehicleDistance => vd.vehicle)) := rfl
    rw [hq, ← List.filter_map]
    refine List.Perm.filter _ ?_
    have hperm := (List.perm_insertionSort distLE (vehicles.map (fun vehicle =>
      ({ vehicle := vehicle
         distance := calculateDistance userPosition vehicle.position } : VehicleDistance)))).map
        (fun vd : VehicleDistance => vd.vehicle)
    have hid : ((fun vd : VehicleDistance => vd.vehicle) ∘ (fun vehicle =>
        ({ vehicle := vehicle
           distance := calculateDistance userPosition vehicle.position } : VehicleDistance)))
        = id := rfl
    rw [List.map_map, hid, List.map_id] at hperm
    exact hperm
  refine ⟨hmain, ?_⟩
  intro v hv hnb
  have hvf : v ∈ vehicles.filter (fun v => !v.booked) :=
    List.mem_filter.mpr ⟨hv, by simp [hnb]⟩
  have hvm : v ∈ (findClosestVehicles calculateDistance gr userPosition
      vehicles count d).map VehicleOffer.vehicle := hmain.mem_iff.mpr hvf
  rcases List.mem_map.mp hvm with ⟨o, ho, hoe⟩
  exact ⟨o, ho, hoe⟩

theorem findClosestVehicles_nonpos_count_witness :
    (0 : Int) ≤ 0
    ∧ (∃ v ∈ [testVehicle], v.booked = false)
    ∧ (((findClosestVehicles zeroDistance testReviews origin [testVehicle] 0 0).map
          VehicleOffer.vehicle).Perm ([testVehicle].filter (fun v => !v.booked))
        ∧ ∀ v ∈ [testVehicle], v.booked = false →
            ∃ o ∈ findClosestVehicles zeroDistance testReviews origin [testVehicle] 0 0,
              o.vehicle = v) :=
  ⟨by decide, by decide,
    findClosestVehicles_nonpos_count_all_unbooked zeroDistance testReviews origin
      [testVehicle] 0 0 (by decide) (by decide)⟩

/-- C6: `getAllVehicles` with an empty (never loaded) cache fetches the
fleet from storage (third component `true`), populates the cache with
exactly that set via `cacheAddAll`, and returns it; with a loaded cache it
returns the cached set and does not touch storage (third component
`false`). -/
theorem getAllVehicles_cache_policy (db : List Vehicle) (c : CacheState) :
    getAllVehicles db c
      = (if cacheIsEmpty c then db else cacheGetAll c,
         if cacheIsEmpty c then cacheAddAll db c else c,
         cacheIsEmpty c)
    ∧ cacheGetAll (cacheAddAll db c) = db
    ∧ cacheIsEmpty (cacheAddAll db c) = false := by
  refine ⟨?_, rfl, rfl⟩
  cases hc : cacheIsEmpty c <;> simp [getAllVehicles, hc]

/-- C7: after `book v` completes, while the cache is loaded, a subsequent
`getVehicle v.uuid` returns the vehicle record with `booked = true`, served
from the cache without a storage read. -/
theorem book_then_getVehicle_booked (dbFindOne : String → Option Vehicle)
    (v : Vehicle) (c : CacheState) (h : cacheIsEmpty c = false) :
    (getVehicle dbFindOne v.uuid (book v c).2).1 = some { v with booked := true }
    ∧ ({ v with booked := true } : Vehicle).booked = true
    ∧ (getVehicle dbFindOne v.uuid (book v c).2).2 = false := by
  have hl : cacheIsEmpty (book v c).2 = false := by
    simpa [book, cacheIsEmpty, cacheSet_loaded] using h
  refine ⟨?_, rfl, by simp [getVehicle, hl]⟩
  simp only [getVehicle, hl, Bool.false_eq_true, if_false]
  exact cacheGet_cacheSet { v with booked := true } c

theorem book_then_getVehicle_booked_witness :
    cacheIsEmpty loadedCache = false
    ∧ ((getVehicle (fun _ => none) testVehicle.uuid (book testVehicle loadedCache).2).1
          = some { testVehicle with booked := true }
        ∧ ({ testVehicle with booked := true } : Vehicle).booked = true
        ∧ (getVehicle (fun _ => none) testVehicle.uuid (book testVehicle loadedCache).2).2
            = false) :=
  ⟨rfl, book_then_getVehicle_booked (fun _ => none) testVehicle loadedCache rfl⟩

/-- C8: within a single `book` or `finishRide` call the cache mutation
happens strictly before the durable storage write: in the effect trace,
every cache-write index precedes every storage-update index. -/
theorem book_finishRide_cache_before_storage (v : Vehicle) (p : Position) :
    cacheBeforeStorage (bookTrace v) ∧ cacheBeforeStorage (finishRideTrace v p) := by
  constructor <;>
  · rintro i j ⟨w, hw⟩ ⟨u, x, hx⟩
    rcases j with _ | _ | j2
    · exfalso
      simp [bookTrace, finishRideTrace] at hx
    · rcases i with _ | _ | i2
      · omega
      · exfalso
        simp [bookTrace, finishRideTrace] at hw
      · exfalso
        simp [bookTrace, finishRideTrace] at hw
    · exfalso
      simp [bookTrace, finishRideTrace] at hx

/-- C9: `insertReviewRequest` always creates a pending stub: completion
flag false, no rating, no comment, referencing the given requester and
vehicle, and it satisfies the invariant that rating and comment are present
only when the completion flag is true. -/
theorem insertReviewRequest_pending_stub (generatedGuid : String) (now : ℕ)
    (email : String) (vehicleId : String) (price : ℚ) :
    (insertReviewRequest generatedGuid now email vehicleId price).completed = false
    ∧ (insertReviewRequest generatedGuid now email vehicleId price).rate = none
    ∧ (insertReviewRequest generatedGuid now email vehicleId price).comment = none
    ∧ (insertReviewRequest generatedGuid now email vehicleId price).email = email
    ∧ (insertReviewRequest generatedGuid now email vehicleId price).vehicleId = vehicleId
    ∧ reviewInvariant (insertReviewRequest generatedGuid now email vehicleId price)
        = true :=
  ⟨rfl, rfl, rfl, rfl, rfl, rfl⟩
